import Mathlib

/-!
Verification of the proWES run-lifecycle engine against its source.

The definitions below are shallow embeddings of the Python sources:

* `pro_wes/ga4gh/wes/models.py` — the `State` enum and `RunRequest`
  field validation;
* `pro_wes/ga4gh/wes/states.py` — the `States` lists;
* `pro_wes/utils/db.py` — `DbDocumentConnector` operations over the
  runs collection, modelled as a list of BSON-like documents with
  MongoDB `$set` dotted-path semantics;
* `pro_wes/ga4gh/wes/workflow_runs.py` — the admission and query
  controllers;
* `pro_wes/tasks/track_run_progress.py` — the background tracker loop;
* `pro_wes/ga4gh/wes/endpoints/service_info.py` — the service-info
  aggregator.
-/

namespace ProWes

/-- The ten-state run enum of `pro_wes/ga4gh/wes/models.py` (`class State`). -/
inductive State where
  | UNKNOWN
  | QUEUED
  | INITIALIZING
  | RUNNING
  | PAUSED
  | COMPLETE
  | EXECUTOR_ERROR
  | SYSTEM_ERROR
  | CANCELED
  | CANCELING
deriving DecidableEq, Repr

/-- String value of a state, as in the Python enum (`State.X.value`). -/
def State.value : State → String
  | .UNKNOWN => "UNKNOWN"
  | .QUEUED => "QUEUED"
  | .INITIALIZING => "INITIALIZING"
  | .RUNNING => "RUNNING"
  | .PAUSED => "PAUSED"
  | .COMPLETE => "COMPLETE"
  | .EXECUTOR_ERROR => "EXECUTOR_ERROR"
  | .SYSTEM_ERROR => "SYSTEM_ERROR"
  | .CANCELED => "CANCELED"
  | .CANCELING => "CANCELING"

/-- `State(state)` construction from a string: `some` exactly on the ten
enum values (models the `State(state)` call in `update_run_state`). -/
def State.ofValue (s : String) : Option State :=
  if s = "UNKNOWN" then some .UNKNOWN
  else if s = "QUEUED" then some .QUEUED
  else if s = "INITIALIZING" then some .INITIALIZING
  else if s = "RUNNING" then some .RUNNING
  else if s = "PAUSED" then some .PAUSED
  else if s = "COMPLETE" then some .COMPLETE
  else if s = "EXECUTOR_ERROR" then some .EXECUTOR_ERROR
  else if s = "SYSTEM_ERROR" then some .SYSTEM_ERROR
  else if s = "CANCELED" then some .CANCELED
  else if s = "CANCELING" then some .CANCELING
  else none

/-- `State.is_finished` property from `models.py`. -/
def State.is_finished : State → Bool
  | .COMPLETE => true
  | .EXECUTOR_ERROR => true
  | .SYSTEM_ERROR => true
  | .CANCELED => true
  | _ => false

/-- `State.is_cancelable` property from `models.py`. -/
def State.is_cancelable : State → Bool
  | .QUEUED => true
  | .INITIALIZING => true
  | .RUNNING => true
  | .PAUSED => true
  | _ => false

/-- `States.UNDEFINED` from `pro_wes/ga4gh/wes/states.py`. -/
def States.UNDEFINED : List String := ["UNKNOWN"]

/-- `States.CANCELABLE` from `states.py`. -/
def States.CANCELABLE : List String :=
  ["INITIALIZING", "PAUSED", "QUEUED", "RUNNING"]

/-- `States.FINISHED` from `states.py`. -/
def States.FINISHED : List String :=
  ["COMPLETE", "EXECUTOR_ERROR", "SYSTEM_ERROR", "CANCELED"]

/-- `States.UNFINISHED` from `states.py`. -/
def States.UNFINISHED : List String := States.CANCELABLE ++ ["CANCELING"]

/-- `States.ALL` from `states.py`. -/
def States.ALL : List String :=
  States.FINISHED ++ States.UNFINISHED ++ States.UNDEFINED

/-! ## BSON document model

MongoDB documents are modelled as association lists of field names to
values; `$set` with a dotted path `root.key` rewrites the `key` entry of
the embedded object at `root`, creating it if absent, exactly as MongoDB
does. -/

/-- A BSON-like value: an atom (string), an embedded object, or null. -/
inductive BVal where
  | str (s : String)
  | obj (fields : List (String × BVal))
  | nullv
deriving Repr

/-- A BSON document: a list of named fields. -/
abbrev BDoc := List (String × BVal)

/-- Look up a top-level field of a document. -/
def objGet (d : BDoc) (k : String) : Option BVal :=
  match d with
  | [] => none
  | (k0, v0) :: rest => if k0 = k then some v0 else objGet rest k

/-- Set (or insert) a top-level field of a document. -/
def objSet (d : BDoc) (k : String) (v : BVal) : BDoc :=
  match d with
  | [] => [(k, v)]
  | (k0, v0) :: rest =>
      if k0 = k then (k0, v) :: rest else (k0, v0) :: objSet rest k v

/-- The fields of the embedded object at `root`, or `[]` when `root` is
absent or not an object (MongoDB creates the object on dotted `$set`). -/
def rootFields (d : BDoc) (root : String) : BDoc :=
  match objGet d root with
  | some (BVal.obj fs) => fs
  | _ => []

/-- MongoDB `$set` with the dotted path `root.key`. -/
def setDotted (d : BDoc) (root key : String) (v : BVal) : BDoc :=
  objSet d root (BVal.obj (objSet (rootFields d root) key v))

/-- Read the dotted path `root.key`. -/
def getDotted (d : BDoc) (root key : String) : Option BVal :=
  objGet (rootFields d root) key

/-- Does a document match the connector filter on `task_id`? -/
def matchesTask (tid : String) (d : BDoc) : Bool :=
  match objGet d "task_id" with
  | some (BVal.str s) => s = tid
  | _ => false

/-- `collection.find_one_and_update(filter={task_id}, update, AFTER)`:
apply `f` to the first document matching `task_id` and return the
post-update document together with the new collection. -/
def findOneAndUpdate (coll : List BDoc) (tid : String) (f : BDoc → BDoc) :
    Option BDoc × List BDoc :=
  match coll with
  | [] => (none, [])
  | d :: rest =>
      if matchesTask tid d then (some (f d), f d :: rest)
      else
        let r := findOneAndUpdate rest tid f
        (r.1, d :: r.2)

/-- `DbDocumentConnector.update_run_state` (`pro_wes/utils/db.py`):
validate the state string via `State(state)` (a `ValueError` — modelled
as `Except.error` — on an unknown state), then unconditionally
`$set run_log.state = state` on the document of the bound `task_id`. -/
def update_run_state (coll : List BDoc) (tid : String) (state : String) :
    Except Unit (List BDoc) :=
  match State.ofValue state with
  | none => .error ()
  | some _ =>
      .ok (findOneAndUpdate coll tid
        (fun d => setDotted d "run_log" "state" (BVal.str state))).2

/-- Apply the `$set` updates of `upsert_fields_in_root_object` to one
document: one dotted-path `$set` per keyword argument. -/
def setFields (root : String) (kvs : List (String × BVal)) (d : BDoc) : BDoc :=
  kvs.foldl (fun d kv => setDotted d root kv.1 kv.2) d

/-- `DbDocumentConnector.upsert_fields_in_root_object` (`db.py`): a single
`find_one_and_update` that `$set`s `root.key = value` for every keyword
argument and returns the post-update document. -/
def upsert_fields_in_root_object (coll : List BDoc) (tid : String)
    (root : String) (kvs : List (String × BVal)) :
    Option BDoc × List BDoc :=
  findOneAndUpdate coll tid (setFields root kvs)

/-! ## Frame lemmas for the document model -/

theorem objGet_objSet_same (d : BDoc) (k : String) (v : BVal) :
    objGet (objSet d k v) k = some v := by
  induction d with
  | nil => simp [objSet, objGet]
  | cons hd tl ih =>
      obtain ⟨k0, v0⟩ := hd
      by_cases h : k0 = k
      · simp [objSet, objGet, h]
      · simp [objSet, objGet, h, ih]

theorem objGet_objSet_other (d : BDoc) (k k' : String) (v : BVal)
    (h : k' ≠ k) : objGet (objSet d k v) k' = objGet d k' := by
  have hk : ¬(k = k') := fun hh => h hh.symm
  induction d with
  | nil => simp [objSet, objGet, hk]
  | cons hd tl ih =>
      obtain ⟨k0, v0⟩ := hd
      by_cases h0 : k0 = k
      · subst h0
        simp [objSet, objGet, hk]
      · simp [objSet, objGet, h0, ih]

theorem rootFields_setDotted_same (d : BDoc) (root key : String) (v : BVal) :
    rootFields (setDotted d root key v) root
      = objSet (rootFields d root) key v := by
  simp [rootFields, setDotted, objGet_objSet_same]

theorem getDotted_setDotted_same (d : BDoc) (root key : String) (v : BVal) :
    getDotted (setDotted d root key v) root key = some v := by
  simp [getDotted, rootFields_setDotted_same, objGet_objSet_same]

theorem getDotted_setDotted_other (d : BDoc) (root key key' : String)
    (v : BVal) (h : key' ≠ key) :
    getDotted (setDotted d root key v) root key'
      = getDotted d root key' := by
  simp [getDotted, rootFields_setDotted_same, objGet_objSet_other _ _ _ _ h]

theorem objGet_setDotted_other (d : BDoc) (root root' key : String)
    (v : BVal) (h : root' ≠ root) :
    objGet (setDotted d root key v) root' = objGet d root' := by
  simp [setDotted, objGet_objSet_other _ _ _ _ h]

theorem setFields_cons (root : String) (kv : String × BVal)
    (rest : List (String × BVal)) (d : BDoc) :
    setFields root (kv :: rest) d
      = setFields root rest (setDotted d root kv.1 kv.2) := rfl

theorem getDotted_setFields_not_mem (root : String)
    (kvs : List (String × BVal)) (d : BDoc) (k : String)
    (h : k ∉ kvs.map Prod.fst) :
    getDotted (setFields root kvs d) root k = getDotted d root k := by
  induction kvs generalizing d with
  | nil => rfl
  | cons kv rest ih =>
      simp only [List.map_cons, List.mem_cons, not_or] at h
      rw [setFields_cons, ih _ h.2,
        getDotted_setDotted_other _ _ _ _ _ h.1]

theorem getDotted_setFields_mem (root : String)
    (kvs : List (String × BVal)) (d : BDoc) (k : String) (v : BVal)
    (hnd : (kvs.map Prod.fst).Nodup) (h : (k, v) ∈ kvs) :
    getDotted (setFields root kvs d) root k = some v := by
  induction kvs generalizing d with
  | nil => cases h
  | cons kv rest ih =>
      rcases List.mem_cons.mp h with heq | htl
      · subst heq
        rw [setFields_cons,
          getDotted_setFields_not_mem _ _ _ _ (by
            have := (List.nodup_cons.mp hnd).1
            simpa using this),
          getDotted_setDotted_same]
      · rw [setFields_cons]
        exact ih _ (List.nodup_cons.mp hnd).2 htl

theorem objGet_setFields_other (root root' : String)
    (kvs : List (String × BVal)) (d : BDoc) (h : root' ≠ root) :
    objGet (setFields root kvs d) root' = objGet d root' := by
  induction kvs generalizing d with
  | nil => rfl
  | cons kv rest ih =>
      rw [setFields_cons, ih, objGet_setDotted_other _ _ _ _ _ h]

theorem findOneAndUpdate_cons_true (d : BDoc) (rest : List BDoc)
    (tid : String) (f : BDoc → BDoc) (hd : matchesTask tid d = true) :
    findOneAndUpdate (d :: rest) tid f = (some (f d), f d :: rest) := by
  simp [findOneAndUpdate, hd]

theorem findOneAndUpdate_cons_false (p : BDoc) (rest : List BDoc)
    (tid : String) (f : BDoc → BDoc) (hp : matchesTask tid p = false) :
    findOneAndUpdate (p :: rest) tid f
      = ((findOneAndUpdate rest tid f).1,
         p :: (findOneAndUpdate rest tid f).2) := by
  simp [findOneAndUpdate, hp]

theorem findOneAndUpdate_split (pre post : List BDoc) (d : BDoc)
    (tid : String) (f : BDoc → BDoc)
    (hpre : ∀ p ∈ pre, matchesTask tid p = false)
    (hd : matchesTask tid d = true) :
    findOneAndUpdate (pre ++ d :: post) tid f
      = (some (f d), pre ++ f d :: post) := by
  induction pre with
  | nil =>
      rw [List.nil_append, findOneAndUpdate_cons_true _ _ _ _ hd]
      rfl
  | cons p ps ih =>
      have hp := hpre p (by simp)
      rw [List.cons_append, findOneAndUpdate_cons_false _ _ _ _ hp,
        ih (fun q hq => hpre q (by simp [hq]))]
      rfl

/-! ## C1 — the connector applies no finished-state guard -/

/-- A stored document whose run has reached the finished state
`COMPLETE`. -/
def c1doc : BDoc :=
  [("task_id", BVal.str "t1"),
   ("run_log", BVal.obj [("state", BVal.str "COMPLETE")])]

/-- C1 counterexample: a run document whose `run_log.state` is the
finished state `COMPLETE` does not reject a later tracker write:
`update_run_state` succeeds and replaces the stored state with
`SYSTEM_ERROR`, so the stored `run_log.state` does not stay unchanged. -/
theorem c1_finished_state_overwritten :
    update_run_state [c1doc] "t1" "SYSTEM_ERROR"
      = .ok [[("task_id", BVal.str "t1"),
              ("run_log", BVal.obj [("state", BVal.str "SYSTEM_ERROR")])]]
    ∧ getDotted c1doc "run_log" "state" = some (BVal.str "COMPLETE")
    ∧ BVal.str "SYSTEM_ERROR" ≠ BVal.str "COMPLETE" := by
  refine ⟨rfl, rfl, ?_⟩
  intro h
  injection h with h2
  exact absurd h2 (by decide)

/-- C1 (amended): `DbDocumentConnector.update_run_state` performs an
unconditional `$set` on `run_log.state`: for any stored document —
including one already in a finished state — a later call with a valid
state string succeeds and replaces the stored `run_log.state` with the
new state. -/
theorem c1_update_run_state_unconditional (pre post : List BDoc)
    (d : BDoc) (tid : String) (st : State)
    (hpre : ∀ p ∈ pre, matchesTask tid p = false)
    (hd : matchesTask tid d = true) :
    update_run_state (pre ++ d :: post) tid st.value
      = .ok (pre ++ setDotted d "run_log" "state" (BVal.str st.value) :: post)
    ∧ getDotted (setDotted d "run_log" "state" (BVal.str st.value))
        "run_log" "state" = some (BVal.str st.value) := by
  constructor
  · have hof : State.ofValue st.value = some st := by cases st <;> decide
    rw [update_run_state, hof]
    rw [findOneAndUpdate_split pre post d tid _ hpre hd]
  · exact getDotted_setDotted_same _ _ _ _

/-- C1 amended-claim witness: the unconditional overwrite applied to the
concrete finished-state document `c1doc`. -/
theorem c1_update_run_state_unconditional_witness :
    update_run_state [c1doc] "t1" State.SYSTEM_ERROR.value
      = .ok [setDotted c1doc "run_log" "state"
              (BVal.str State.SYSTEM_ERROR.value)]
    ∧ getDotted (setDotted c1doc "run_log" "state"
        (BVal.str State.SYSTEM_ERROR.value)) "run_log" "state"
      = some (BVal.str State.SYSTEM_ERROR.value) :=
  c1_update_run_state_unconditional [] [] c1doc "t1" State.SYSTEM_ERROR
    (fun p hp => absurd hp (List.not_mem_nil p)) rfl

/-! ## C10 — field-scoped upsert frame property -/

/-- C10: `upsert_fields_in_root_object(root, k1=v1, ..., kn=vn)` on the
connector bound to `task_id` updates only the first document matching
the task and, inside it, sets exactly the fields `root.k1 .. root.kn` to
the given values: every other top-level field, and every key under
`root` not listed, is unchanged, and the returned value is the
post-update document. In particular an upsert with `root = "run_log"`
(the tracker's log mirroring) never overwrites fields outside
`run_log`. -/
theorem c10_upsert_fields_frame (pre post : List BDoc) (d : BDoc)
    (tid root : String) (kvs : List (String × BVal))
    (hpre : ∀ p ∈ pre, matchesTask tid p = false)
    (hd : matchesTask tid d = true)
    (hnd : (kvs.map Prod.fst).Nodup) :
    upsert_fields_in_root_object (pre ++ d :: post) tid root kvs
      = (some (setFields root kvs d), pre ++ setFields root kvs d :: post)
    ∧ (∀ k, k ≠ root → objGet (setFields root kvs d) k = objGet d k)
    ∧ (∀ k v, (k, v) ∈ kvs → getDotted (setFields root kvs d) root k = some v)
    ∧ (∀ k, k ∉ kvs.map Prod.fst →
        getDotted (setFields root kvs d) root k = getDotted d root k) := by
  refine ⟨findOneAndUpdate_split pre post d tid _ hpre hd, ?_, ?_, ?_⟩
  · intro k hk
    exact objGet_setFields_other root k kvs d hk
  · intro k v hm
    exact getDotted_setFields_mem root kvs d k v hnd hm
  · intro k hk
    exact getDotted_setFields_not_mem root kvs d k hk

/-- A stored run document with fields outside and inside `run_log`. -/
def c10doc : BDoc :=
  [("task_id", BVal.str "t2"), ("user_id", BVal.str "alice"),
   ("work_dir", BVal.str "/data/r2"),
   ("run_log", BVal.obj [("state", BVal.str "RUNNING"),
                         ("run_id", BVal.str "r2")]),
   ("wes_endpoint", BVal.obj [("host", BVal.str "h")])]

/-- The tracker's mirrored run-log fields (after dropping `request`). -/
def c10kvs : List (String × BVal) :=
  [("state", BVal.str "COMPLETE"), ("outputs", BVal.nullv)]

/-- C10 witness: the frame property applied to a concrete run document
and a concrete tracker upsert into `run_log`. -/
theorem c10_upsert_fields_frame_witness :
    upsert_fields_in_root_object [c10doc] "t2" "run_log" c10kvs
      = (some (setFields "run_log" c10kvs c10doc),
         [setFields "run_log" c10kvs c10doc])
    ∧ objGet (setFields "run_log" c10kvs c10doc) "user_id"
        = objGet c10doc "user_id"
    ∧ getDotted (setFields "run_log" c10kvs c10doc) "run_log" "state"
        = some (BVal.str "COMPLETE")
    ∧ getDotted (setFields "run_log" c10kvs c10doc) "run_log" "run_id"
        = getDotted c10doc "run_log" "run_id" := by
  have h := c10_upsert_fields_frame [] [] c10doc "t2" "run_log" c10kvs
    (fun p hp => absurd hp (List.not_mem_nil p)) (by decide) (by decide)
  exact ⟨h.1, h.2.1 "user_id" (by decide),
    h.2.2.1 "state" (BVal.str "COMPLETE") (List.mem_cons_self _ _),
    h.2.2.2 "run_id" (by decide)⟩

/-! ## Query controllers (`pro_wes/ga4gh/wes/workflow_runs.py`) -/

/-- `WorkflowRuns._check_access_permission`: returns `true` when the
controller raises `Forbidden`, i.e. exactly when
`requester is not None and requester != owner`. -/
def check_access_permission (owner requester : Option String) : Bool :=
  requester.isSome && decide (requester ≠ owner)

/-- Controller-level view of a stored run document: the fields the
query controllers project (`run_log.run_id`, `user_id`,
`run_log.state`, and the upstream endpoint coordinates). -/
structure RunDocQ where
  run_id : String
  user_id : Option String
  state : State
  remote_run_id : Option String
  wes_host : String
  wes_base_path : String
deriving DecidableEq, Repr

/-- `find_one(filter={run_log.run_id: run_id})`. -/
def findRun (store : List RunDocQ) (rid : String) : Option RunDocQ :=
  store.find? (fun d => d.run_id = rid)

/-- The `run_log` projection returned by `get_run_log`. -/
structure RunLogView where
  run_id : String
  state : State
deriving DecidableEq, Repr

/-- Result of a `get_run_log` call. -/
inductive GetRunLogResult where
  | ok (run_log : RunLogView)
  | runNotFound
  | forbidden
deriving DecidableEq, Repr

/-- `WorkflowRuns.get_run_log`: resolve by local `run_id` (404 when
absent), apply the access check (403), else return the `run_log`
sub-document. -/
def get_run_log (store : List RunDocQ) (rid : String)
    (requester : Option String) : GetRunLogResult :=
  match findRun store rid with
  | none => .runNotFound
  | some doc =>
      if check_access_permission doc.user_id requester then .forbidden
      else .ok ⟨doc.run_id, doc.state⟩

/-- C2: the access check raises `Forbidden` on a document with a *null*
owner whenever the request carries any `user_id`: with owner `None` and
requester `"alice"`, `requester != owner` holds in Python, so
`_check_access_permission` raises and `get_run_log` fails 403 — although
the claim (and the method's own docstring, which requires the owner to
be known) says such a call succeeds. -/
theorem c2_forbidden_on_null_owner :
    check_access_permission none (some "alice") = true
    ∧ get_run_log [⟨"r1", none, State.RUNNING, none, "h", "b"⟩] "r1"
        (some "alice") = .forbidden := by
  constructor <;> rfl

/-- Outcome of a `cancel_run` call. -/
inductive CancelOutcome where
  | ok (run_id : String)
  | runNotFound
  | forbidden
  | keyError
  | engineUnavailable
deriving DecidableEq, Repr

/-- Result of a `cancel_run` call: the outcome, the runs collection
after the call, and the remote run identifiers forwarded upstream. -/
structure CancelResult where
  outcome : CancelOutcome
  store : List RunDocQ
  forwarded : List String
deriving Repr

/-- `WorkflowRuns.cancel_run`: resolve by local `run_id`, apply the
access check, read `wes_endpoint.run_id` (a missing key is a
`KeyError`), forward `cancel_run(remote_run_id)` to the upstream client
(which may raise `EngineUnavailable`), return the local `run_id`. No
branch writes to the runs collection. -/
def cancel_run (store : List RunDocQ) (rid : String)
    (requester : Option String) (upstream_ok : Bool) : CancelResult :=
  match findRun store rid with
  | none => ⟨.runNotFound, store, []⟩
  | some doc =>
      if check_access_permission doc.user_id requester then
        ⟨.forbidden, store, []⟩
      else
        match doc.remote_run_id with
        | none => ⟨.keyError, store, []⟩
        | some remote =>
            if upstream_ok then ⟨.ok rid, store, [remote]⟩
            else ⟨.engineUnavailable, store, [remote]⟩

/-- C9: `cancel_run` never writes to the runs collection — the stored
documents are identical before and after the call on every path,
returning or raising — and on the non-error path the cancellation
forwarded upstream carries the document's `wes_endpoint.run_id` while
the local `run_id` is returned. -/
theorem c9_cancel_run_no_write (store : List RunDocQ) (rid : String)
    (requester : Option String) (up : Bool) :
    (cancel_run store rid requester up).store = store
    ∧ ∀ doc remote, findRun store rid = some doc →
        check_access_permission doc.user_id requester = false →
        doc.remote_run_id = some remote →
        (cancel_run store rid requester up).forwarded = [remote]
        ∧ (up = true → (cancel_run store rid requester up).outcome = .ok rid) := by
  constructor
  · simp only [cancel_run]
    split
    · rfl
    · split
      · rfl
      · split
        · rfl
        · split <;> rfl
  · intro doc remote hf hc hr
    simp only [cancel_run, hf, hc, hr, Bool.false_eq_true, if_false]
    cases up <;> simp

/-- C9 witness: a concrete owner-matching cancel call with a reachable
upstream: the store is unchanged, the remote id is forwarded, the local
id returned. -/
theorem c9_cancel_run_no_write_witness :
    (cancel_run [⟨"r1", some "alice", State.RUNNING, some "rem1", "h", "b"⟩]
      "r1" (some "alice") true).store
      = [⟨"r1", some "alice", State.RUNNING, some "rem1", "h", "b"⟩]
    ∧ (cancel_run [⟨"r1", some "alice", State.RUNNING, some "rem1", "h", "b"⟩]
        "r1" (some "alice") true).forwarded = ["rem1"]
    ∧ (cancel_run [⟨"r1", some "alice", State.RUNNING, some "rem1", "h", "b"⟩]
        "r1" (some "alice") true).outcome = .ok "r1" := by
  have h := c9_cancel_run_no_write
    [⟨"r1", some "alice", State.RUNNING, some "rem1", "h", "b"⟩]
    "r1" (some "alice") true
  have h2 := h.2 ⟨"r1", some "alice", State.RUNNING, some "rem1", "h", "b"⟩
    "rem1" (by decide) (by decide) rfl
  exact ⟨h.1, h2.1, h2.2 rfl⟩

/-! ## C5 — forwarding errors in `run_workflow` (`workflow_runs.py`) -/

/-- The methods defined on `DbDocumentConnector` in `pro_wes/utils/db.py`
(besides the constructor): Python attribute lookup on a connector
instance succeeds exactly for these names. -/
def dbDocumentConnectorMethods : List String :=
  ["get_document", "update_run_state", "upsert_fields_in_root_object"]

/-- What `wes_client.post_run` produced for the forwarded `POST /runs`. -/
inductive PostRunResponse where
  | engineUnavailable
  | errorResponse (status_code : Nat)
  | runId (run_id : String)
deriving DecidableEq, Repr

/-- Client-visible outcome of the forward step of `run_workflow`. -/
inductive ForwardOutcome where
  | attributeError (method : String)
  | raisedEngineUnavailable
  | raisedBadRequest
  | raisedUnauthorized
  | raisedForbidden
  | raisedInternalServerError
  | ok
deriving DecidableEq, Repr

/-- Status-code mapping of `run_workflow`'s upstream-error branch. -/
def mapUpstreamError (code : Nat) : ForwardOutcome :=
  if code = 400 then .raisedBadRequest
  else if code = 401 then .raisedUnauthorized
  else if code = 403 then .raisedForbidden
  else .raisedInternalServerError

/-- The forward-and-handle step of `WorkflowRuns.run_workflow`
(`workflow_runs.py:127-150`). Both error branches first execute
`db_connector.update_task_state(...)`: a Python attribute lookup on the
connector, which raises `AttributeError` when the name is not among
`dbDocumentConnectorMethods` — before any state write or mapped raise.
On a `RunId` response the remote identifier is upserted into
`wes_endpoint.run_id`. -/
def run_workflow_forward (coll : List BDoc) (tid : String)
    (resp : PostRunResponse) : ForwardOutcome × List BDoc :=
  match resp with
  | .engineUnavailable =>
      if "update_task_state" ∈ dbDocumentConnectorMethods then
        ((.raisedEngineUnavailable : ForwardOutcome),
         (findOneAndUpdate coll tid
           (fun d => setDotted d "run_log" "state"
             (BVal.str State.SYSTEM_ERROR.value))).2)
      else (.attributeError "update_task_state", coll)
  | .errorResponse code =>
      if "update_task_state" ∈ dbDocumentConnectorMethods then
        (mapUpstreamError code,
         (findOneAndUpdate coll tid
           (fun d => setDotted d "run_log" "state"
             (BVal.str State.SYSTEM_ERROR.value))).2)
      else (.attributeError "update_task_state", coll)
  | .runId rid =>
      (.ok,
       (upsert_fields_in_root_object coll tid "wes_endpoint"
         [("run_id", BVal.str rid)]).2)

/-- C5: evaluation of the forward step at the failing inputs.
`DbDocumentConnector` has no method `update_task_state`, so on
`EngineUnavailable` and on every upstream error response the admission
controller raises `AttributeError` with the document untouched — the
document's `run_log.state` is never set to `SYSTEM_ERROR` and the mapped
client-visible error (400/401/403/500) is never raised. The `RunId`
success path does upsert `wes_endpoint.run_id` without error. -/
theorem c5_update_task_state_attribute_error :
    ("update_task_state" ∉ dbDocumentConnectorMethods)
    ∧ (∀ coll tid code, run_workflow_forward coll tid (.errorResponse code)
        = (.attributeError "update_task_state", coll))
    ∧ (∀ coll tid, run_workflow_forward coll tid .engineUnavailable
        = (.attributeError "update_task_state", coll))
    ∧ (∀ coll tid rid, (run_workflow_forward coll tid (.runId rid)).1 = .ok) := by
  refine ⟨by decide, ?_, ?_, ?_⟩
  · intro coll tid code
    simp [run_workflow_forward, dbDocumentConnectorMethods]
  · intro coll tid
    simp [run_workflow_forward, dbDocumentConnectorMethods]
  · intro coll tid rid
    rfl

/-! ## C8 — service-info aggregation
(`pro_wes/ga4gh/wes/endpoints/service_info.py`) -/

/-- `RegisterServiceInfo._init_system_state_counts`: all counts zero,
one key per state in `States.ALL`. -/
def init_system_state_counts : List (String × Nat) :=
  States.ALL.map (fun s => (s, 0))

/-- Look up a state's counter. -/
def countsGet (counts : List (String × Nat)) (k : String) : Option Nat :=
  match counts with
  | [] => none
  | (k0, n) :: rest => if k0 = k then some n else countsGet rest k

/-- Python `current_counts[state] += 1`: `none` models the `KeyError`
raised when the key is absent. -/
def countsIncr (counts : List (String × Nat)) (k : String) :
    Option (List (String × Nat)) :=
  match counts with
  | [] => none
  | (k0, n) :: rest =>
      if k0 = k then some ((k0, n + 1) :: rest)
      else (countsIncr rest k).map (fun r => (k0, n) :: r)

/-- Sum of all counters. -/
def countsSum (counts : List (String × Nat)) : Nat :=
  (counts.map Prod.snd).sum

/-- `RegisterServiceInfo._get_system_state_counts`: initialise a counter
per state in `States.ALL`, then iterate over the run documents (each
projected to its state) and increment the matching counter. -/
def get_system_state_counts (runs : List State) :
    Option (List (String × Nat)) :=
  runs.foldlM (fun counts st => countsIncr counts st.value)
    init_system_state_counts

/-- Result of `RegisterServiceInfo.get_service_info`. -/
inductive ServiceInfoResult where
  | notFound
  | keyError
  | ok (info : String) (counts : List (String × Nat))
deriving DecidableEq, Repr

/-- `RegisterServiceInfo.get_service_info`: read the latest service-info
document (`find({}).sort(_id, -1).limit(1).next()`, i.e. the most
recently inserted one — `StopIteration` → `NotFound` when the
collection is empty), then augment it with the live state counts. -/
def get_service_info (infos : List String) (runs : List State) :
    ServiceInfoResult :=
  match infos.getLast? with
  | none => .notFound
  | some info =>
      match get_system_state_counts runs with
      | none => .keyError
      | some counts => .ok info counts

/-- Number of runs in state `s`. -/
def countState (runs : List State) (s : State) : Nat :=
  (runs.filter (fun r => r = s)).length

theorem countsIncr_spec (counts : List (String × Nat)) (k : String)
    (n : Nat) (h : countsGet counts k = some n) :
    ∃ counts2, countsIncr counts k = some counts2
      ∧ countsGet counts2 k = some (n + 1)
      ∧ (∀ k2, k2 ≠ k → countsGet counts2 k2 = countsGet counts k2)
      ∧ countsSum counts2 = countsSum counts + 1 := by
  induction counts with
  | nil => simp [countsGet] at h
  | cons hd rest ih =>
      obtain ⟨k0, m⟩ := hd
      by_cases h0 : k0 = k
      · subst h0
        have hmn : m = n := by simpa [countsGet] using h
        subst hmn
        refine ⟨(k0, m + 1) :: rest, by simp [countsIncr], ?_, ?_, ?_⟩
        · simp [countsGet]
        · intro k2 hk2
          have hk : ¬(k0 = k2) := fun hh => hk2 hh.symm
          simp [countsGet, hk]
        · simp [countsSum, Nat.add_assoc, Nat.add_comm 1]
      · simp only [countsGet, if_neg h0] at h
        obtain ⟨c2, hc2, hget, hother, hsum⟩ := ih h
        refine ⟨(k0, m) :: c2, by simp [countsIncr, h0, hc2], ?_, ?_, ?_⟩
        · simp [countsGet, h0, hget]
        · intro k2 hk2
          by_cases h2 : k0 = k2 <;> simp [countsGet, h2, hother k2 hk2]
        · simp [countsSum] at hsum ⊢
          omega

/-- Distinct states have distinct string values. -/
theorem State.value_injective (s r : State) (h : s.value = r.value) :
    s = r := by
  cases s <;> cases r <;> first | rfl | exact absurd h (by decide)

theorem get_system_state_counts_fold (runs : List State) :
    ∀ counts : List (String × Nat),
      (∀ s : State, ∃ n, countsGet counts s.value = some n) →
      ∃ counts2,
        runs.foldlM (fun c st => countsIncr c st.value) counts = some counts2
        ∧ (∀ s : State, ∀ n, countsGet counts s.value = some n →
            countsGet counts2 s.value = some (n + countState runs s))
        ∧ countsSum counts2 = countsSum counts + runs.length := by
  induction runs with
  | nil =>
      intro counts _
      refine ⟨counts, rfl, ?_, by simp⟩
      intro s n h
      simp [countState, h]
  | cons r rest ih =>
      intro counts hall
      obtain ⟨n, hn⟩ := hall r
      obtain ⟨c1, hc1, hget, hother, hsum⟩ := countsIncr_spec counts r.value n hn
      have hall1 : ∀ s : State, ∃ m, countsGet c1 s.value = some m := by
        intro s
        by_cases hs : s = r
        · subst hs
          exact ⟨n + 1, hget⟩
        · obtain ⟨m, hm⟩ := hall s
          exact ⟨m, by
            rw [hother s.value (fun hh => hs (State.value_injective s r hh))]
            exact hm⟩
      obtain ⟨c2, hc2, hget2, hsum2⟩ := ih c1 hall1
      refine ⟨c2, ?_, ?_, ?_⟩
      · simpa [List.foldlM, hc1] using hc2
      · intro s m hm
        by_cases hs : s = r
        · subst hs
          rw [hm] at hn
          injection hn with hnm
          subst hnm
          rw [hget2 s (m + 1) hget]
          have hcount : countState (s :: rest) s = countState rest s + 1 := by
            simp [countState, List.filter_cons]
          rw [hcount]
          congr 1
          omega
        · have hm1 : countsGet c1 s.value = some m := by
            rw [hother s.value (fun hh => hs (State.value_injective s r hh))]
            exact hm
          rw [hget2 s m hm1]
          have hcount : countState (r :: rest) s = countState rest s := by
            have hrs : (decide (r = s)) = false :=
              decide_eq_false (fun hh => hs hh.symm)
            simp [countState, List.filter_cons, hrs]
          rw [hcount]
      · rw [hsum2, hsum]
        simp [Nat.add_assoc, Nat.add_comm 1]

/-- C8: `get_service_info` raises `NotFound` exactly when the
service-info collection has never been written; otherwise it returns
the most recently stored descriptor augmented with
`system_state_counts`, which carries one key per state of the ten-state
enum, maps each state to the number of run documents in that state, and
sums to the total number of run documents. -/
theorem c8_get_service_info (infos : List String) (runs : List State) :
    (infos = [] → get_service_info infos runs = .notFound)
    ∧ (∀ info, infos.getLast? = some info →
        ∃ counts, get_service_info infos runs = .ok info counts
          ∧ (∀ s : State, countsGet counts s.value = some (countState runs s))
          ∧ countsSum counts = runs.length) := by
  constructor
  · intro h
    subst h
    rfl
  · intro info hlast
    have hinit : ∀ s : State, ∃ n,
        countsGet init_system_state_counts s.value = some n := by
      intro s
      cases s <;> exact ⟨0, by decide⟩
    obtain ⟨counts, hfold, hget, hsum⟩ :=
      get_system_state_counts_fold runs init_system_state_counts hinit
    refine ⟨counts, ?_, ?_, ?_⟩
    · rw [get_service_info, hlast]
      rw [get_system_state_counts] at *
      rw [hfold]
    · intro s
      have h0 : countsGet init_system_state_counts s.value = some 0 := by
        cases s <;> decide
      simpa using hget s 0 h0
    · have : countsSum init_system_state_counts = 0 := by decide
      rw [hsum, this, Nat.zero_add]

/-- C8 witness: the aggregation at a concrete store holding one
service-info document and three runs. -/
theorem c8_get_service_info_witness :
    get_service_info [] [] = ServiceInfoResult.notFound
    ∧ get_service_info ["si"] [State.COMPLETE, State.RUNNING, State.COMPLETE]
        ≠ ServiceInfoResult.notFound
    ∧ countsGet ((get_system_state_counts
          [State.COMPLETE, State.RUNNING, State.COMPLETE]).getD [])
        State.COMPLETE.value = some 2
    ∧ countsSum ((get_system_state_counts
          [State.COMPLETE, State.RUNNING, State.COMPLETE]).getD []) = 3 := by
  refine ⟨(c8_get_service_info [] []).1 rfl, ?_, by decide, by decide⟩
  obtain ⟨counts, hok, _, _⟩ :=
    (c8_get_service_info ["si"]
      [State.COMPLETE, State.RUNNING, State.COMPLETE]).2 "si" rfl
  rw [hok]
  intro h
  cases h

/-! ## C3 — the tracker's polling loop
(`pro_wes/tasks/track_run_progress.py:104-136`) -/

/-- A `RunStatus` response body. -/
structure RunStatusResp where
  run_id : String
  state : State
deriving DecidableEq, Repr

/-- The dynamic type of the Python local variable `response`: the
unvalidated run-log dict from the initial `get_run` mirror (the cwl-WES
workaround returns the raw dict), a validated `RunStatus`, or an
`ErrorResponse`. -/
inductive RespVar where
  | runLogDict
  | runStatus (r : RunStatusResp)
  | errorResp
deriving DecidableEq, Repr

/-- `isinstance(response, RunStatus)`. -/
def isRunStatus : RespVar → Bool
  | .runStatus _ => true
  | _ => false

/-- One poll of `wes_client.get_run_status`: either it raises
`EngineUnavailable`, or it returns a value — which the loop body
discards (`track_run_progress.py:115` does not assign the result). -/
inductive PollEvent where
  | unavailable
  | returns (v : RespVar)
deriving DecidableEq, Repr

/-- How the polling loop ends. -/
inductive TrackOutcome where
  | loopExited (st : State)
  | engineUnavailableRaised
  | engineProblemRaised
  | outOfEvents
deriving DecidableEq, Repr

/-- The loop's mutable locals. -/
structure LoopState where
  response : RespVar
  run_state : State
  attempt : Nat
deriving DecidableEq, Repr

/-- The `while not run_state.is_finished` loop of
`task__track_run_progress`, faithful to the source: each iteration
calls `get_run_status` but does not bind the result, so
`isinstance(response, RunStatus)` tests the stale `response`;
`EngineUnavailable` and non-`RunStatus` responses increment `attempt`
while `attempt <= polling_attempts`, after which `SYSTEM_ERROR` is
written and the loop raises; a (stale) `RunStatus` resets `attempt` to 1
and writes the state when it differs. Returns the loop outcome and the
list of states written through `update_run_state`. -/
def trackLoop (polling_attempts : Nat) (evs : List PollEvent)
    (st : LoopState) : TrackOutcome × List State :=
  if st.run_state.is_finished then (.loopExited st.run_state, [])
  else
    match evs with
      | [] => (.outOfEvents, [])
      | ev :: rest =>
        match ev with
        | .unavailable =>
            if st.attempt ≤ polling_attempts then
              trackLoop polling_attempts rest
                { st with attempt := st.attempt + 1 }
            else (.engineUnavailableRaised, [State.SYSTEM_ERROR])
        | .returns _ =>
            match st.response with
            | .runStatus r =>
                if r.state = st.run_state then
                  trackLoop polling_attempts rest { st with attempt := 1 }
                else
                  let res := trackLoop polling_attempts rest
                    ⟨st.response, r.state, 1⟩
                  (res.1, r.state :: res.2)
            | _ =>
                if st.attempt ≤ polling_attempts then
                  trackLoop polling_attempts rest
                    { st with attempt := st.attempt + 1 }
                else (.engineProblemRaised, [State.SYSTEM_ERROR])

/-- The loop locals as initialised by the tracker: `response` holds the
initial run-log dict, `run_state = State.UNKNOWN`, `attempt = 1`. -/
def trackInit : LoopState := ⟨.runLogDict, .UNKNOWN, 1⟩

/-- Three consecutive successful `COMPLETE` status responses. -/
def c3events : List PollEvent :=
  [.returns (.runStatus ⟨"rem1", .COMPLETE⟩),
   .returns (.runStatus ⟨"rem1", .COMPLETE⟩),
   .returns (.runStatus ⟨"rem1", .COMPLETE⟩)]

/-- C3: evaluation of the polling loop at the failing input. With
`polling_attempts = 2` and three successful `COMPLETE` responses the
loop writes `SYSTEM_ERROR` and raises `EngineProblem` — because the
`get_run_status` result is never assigned to `response`, every
iteration takes the bad-response branch. In general, whenever
`response` holds the initial run-log dict and the mirrored state is
unfinished, no event sequence can reset the attempt counter, write any
state other than `SYSTEM_ERROR`, or exit the loop normally. -/
theorem c3_successful_polls_still_fail :
    trackLoop 2 c3events trackInit
      = (.engineProblemRaised, [State.SYSTEM_ERROR])
    ∧ ∀ (n : Nat) (evs : List PollEvent) (st : LoopState),
        st.response = .runLogDict → st.run_state.is_finished = false →
        ((trackLoop n evs st).2 = []
          ∨ (trackLoop n evs st).2 = [State.SYSTEM_ERROR])
        ∧ (∀ s, (trackLoop n evs st).1 ≠ .loopExited s) := by
  constructor
  · rfl
  · intro n evs
    induction evs with
    | nil =>
        intro st hresp hfin
        rw [trackLoop.eq_def, hfin]
        simp
    | cons ev rest ih =>
        intro st hresp hfin
        rw [trackLoop.eq_def, hfin]
        simp only [Bool.false_eq_true, if_false]
        cases ev with
        | unavailable =>
            by_cases ha : st.attempt ≤ n
            · simpa [ha] using ih { st with attempt := st.attempt + 1 }
                hresp hfin
            · simp [ha]
        | returns v =>
            by_cases ha : st.attempt ≤ n
            · simpa [hresp, ha] using ih { st with attempt := st.attempt + 1 }
                hresp hfin
            · simp [hresp, ha]

/-- C3 witness: the general no-progress property applied at the
concrete failing input. -/
theorem c3_successful_polls_still_fail_witness :
    ((trackLoop 2 c3events trackInit).2 = []
      ∨ (trackLoop 2 c3events trackInit).2 = [State.SYSTEM_ERROR])
    ∧ (trackLoop 2 c3events trackInit).1
        ≠ .loopExited State.COMPLETE :=
  ⟨(c3_successful_polls_still_fail.2 2 c3events trackInit rfl rfl).1,
   (c3_successful_polls_still_fail.2 2 c3events trackInit rfl rfl).2
     State.COMPLETE⟩

/-! ## C4 — `WorkflowRuns._create_run_environment`
(`workflow_runs.py:394-454`) -/

/-- Configuration and oracles for `_create_run_environment`:
`ids i` is the value the `i`-th call of `generate_id(id_charset,
id_length)` mints, `task_ids i` the `i`-th `uuid()`. -/
structure CreateEnvCtx where
  storage_path : String
  db_insert_attempts : Nat
  ids : Nat → String
  task_ids : Nat → String

/-- Filesystem-and-database state the loop interacts with: whether the
configured storage root exists, the directories below it, and the run
identifiers already present in the runs collection (its unique
index). -/
structure EnvState where
  parent_exists : Bool
  dirs : List String
  db_run_ids : List String
deriving DecidableEq, Repr

/-- Result of `_create_run_environment`. -/
inductive CreateEnvResult where
  | ok (run_id task_id work_dir : String)
  | storageUnavailable
  | idsUnavailable
deriving DecidableEq, Repr

/-- `work_dir = Path(storage_path).resolve() / run_id`. -/
def workDirOf (ctx : CreateEnvCtx) (rid : String) : String :=
  ctx.storage_path ++ "/" ++ rid

/-- The `while attempt <= db_insert_attempts` loop body: mint an id,
`mkdir(work_dir, parents=False, exist_ok=False)` (`FileNotFoundError`
→ `StorageUnavailableProblem`, `FileExistsError` → next attempt),
populate and insert the document (`DuplicateKeyError` → `rmdir` and
next attempt, success → return). `call` numbers the mint calls, `rem`
is the number of attempts left. -/
def createEnvGo (ctx : CreateEnvCtx) (call rem : Nat) (st : EnvState) :
    CreateEnvResult × EnvState :=
  match rem with
  | 0 => (.idsUnavailable, st)
  | rem' + 1 =>
      let rid := ctx.ids call
      let wd := workDirOf ctx rid
      if st.parent_exists = false then (.storageUnavailable, st)
      else if wd ∈ st.dirs then createEnvGo ctx (call + 1) rem' st
      else
        let st1 : EnvState := { st with dirs := wd :: st.dirs }
        if rid ∈ st1.db_run_ids then
          createEnvGo ctx (call + 1) rem' { st1 with dirs := st1.dirs.erase wd }
        else
          (.ok rid (ctx.task_ids call) wd,
           { st1 with db_run_ids := rid :: st1.db_run_ids })

/-- `_create_run_environment`: run the loop with `attempt = 1` against
the bound `db_insert_attempts`, i.e. exactly `db_insert_attempts`
iterations before `IdsUnavailableProblem`. -/
def create_run_environment (ctx : CreateEnvCtx) (st : EnvState) :
    CreateEnvResult × EnvState :=
  createEnvGo ctx 0 ctx.db_insert_attempts st

theorem createEnvGo_parent_missing (ctx : CreateEnvCtx) (call rem : Nat)
    (st : EnvState) (hp : st.parent_exists = false) :
    createEnvGo ctx call (rem + 1) st = (.storageUnavailable, st) := by
  simp [createEnvGo, hp]

theorem createEnvGo_exists_dir (ctx : CreateEnvCtx) (call rem : Nat)
    (st : EnvState) (hp : st.parent_exists = true)
    (hdir : workDirOf ctx (ctx.ids call) ∈ st.dirs) :
    createEnvGo ctx call (rem + 1) st = createEnvGo ctx (call + 1) rem st := by
  simp [createEnvGo, hp, hdir]

theorem createEnvGo_dup_key (ctx : CreateEnvCtx) (call rem : Nat)
    (st : EnvState) (hp : st.parent_exists = true)
    (hdir : workDirOf ctx (ctx.ids call) ∉ st.dirs)
    (hdb : ctx.ids call ∈ st.db_run_ids) :
    createEnvGo ctx call (rem + 1) st = createEnvGo ctx (call + 1) rem st := by
  obtain ⟨p, dirs, db⟩ := st
  replace hp : p = true := hp
  subst hp
  simp [createEnvGo, hdir, hdb, List.erase_cons_head]

theorem createEnvGo_success (ctx : CreateEnvCtx) (call rem : Nat)
    (st : EnvState) (hp : st.parent_exists = true)
    (hdir : workDirOf ctx (ctx.ids call) ∉ st.dirs)
    (hdb : ctx.ids call ∉ st.db_run_ids) :
    createEnvGo ctx call (rem + 1) st
      = (.ok (ctx.ids call) (ctx.task_ids call) (workDirOf ctx (ctx.ids call)),
         ⟨st.parent_exists, workDirOf ctx (ctx.ids call) :: st.dirs,
          ctx.ids call :: st.db_run_ids⟩) := by
  simp [createEnvGo, hp, hdir, hdb]

theorem createEnvGo_all_collide (ctx : CreateEnvCtx) :
    ∀ (rem call : Nat) (st : EnvState), st.parent_exists = true →
    (∀ i, i < rem → workDirOf ctx (ctx.ids (call + i)) ∉ st.dirs
      ∧ ctx.ids (call + i) ∈ st.db_run_ids) →
    createEnvGo ctx call rem st = (.idsUnavailable, st) := by
  intro rem
  induction rem with
  | zero => intro call st _ _; rfl
  | succ rem ih =>
      intro call st hp h
      have h0 := h 0 (Nat.succ_pos rem)
      rw [Nat.add_zero] at h0
      rw [createEnvGo_dup_key ctx call rem st hp h0.1 h0.2]
      apply ih (call + 1) st hp
      intro i hi
      have hs := h (i + 1) (by omega)
      have he : call + (i + 1) = call + 1 + i := by omega
      rw [he] at hs
      exact hs

theorem createEnvGo_collide_prefix (ctx : CreateEnvCtx) :
    ∀ (k call rem : Nat) (st : EnvState), st.parent_exists = true →
    (∀ i, i < k → workDirOf ctx (ctx.ids (call + i)) ∉ st.dirs
      ∧ ctx.ids (call + i) ∈ st.db_run_ids) →
    createEnvGo ctx call (k + rem) st = createEnvGo ctx (call + k) rem st := by
  intro k
  induction k with
  | zero => intro call rem st _ _; rw [Nat.zero_add, Nat.add_zero]
  | succ k ih =>
      intro call rem st hp h
      have h0 := h 0 (Nat.succ_pos k)
      rw [Nat.add_zero] at h0
      have he : k + 1 + rem = (k + rem) + 1 := by omega
      rw [he, createEnvGo_dup_key ctx call (k + rem) st hp h0.1 h0.2]
      have he2 : call + (k + 1) = call + 1 + k := by omega
      rw [he2]
      apply ih (call + 1) rem st hp
      intro i hi
      have hs := h (i + 1) (by omega)
      have he3 : call + (i + 1) = call + 1 + i := by omega
      rw [he3] at hs
      exact hs

/-- C4: the admission controller's run-environment creation makes at
most `db_insert_attempts` attempts; a missing storage root raises
`StorageUnavailableProblem`; a pre-existing work directory restarts the
loop without touching state; a duplicate-key collision removes the
freshly created work directory and restarts; exhausting every attempt
on collisions yields `IdsUnavailableProblem` with the state exactly
restored; and in the duplicate-key storm where the first
`db_insert_attempts - 1` minted ids collide and the last is fresh, the
call returns the final minted `run_id`, the matching fresh `task_id`
and `work_dir = storage_path / run_id`. -/
theorem c4_create_run_environment (ctx : CreateEnvCtx) (st : EnvState) :
    (st.parent_exists = false → 1 ≤ ctx.db_insert_attempts →
      create_run_environment ctx st = (.storageUnavailable, st))
    ∧ (∀ call rem, st.parent_exists = true →
        workDirOf ctx (ctx.ids call) ∈ st.dirs →
        createEnvGo ctx call (rem + 1) st = createEnvGo ctx (call + 1) rem st)
    ∧ (∀ call rem, st.parent_exists = true →
        workDirOf ctx (ctx.ids call) ∉ st.dirs →
        ctx.ids call ∈ st.db_run_ids →
        createEnvGo ctx call (rem + 1) st = createEnvGo ctx (call + 1) rem st)
    ∧ (st.parent_exists = true →
        (∀ i, i < ctx.db_insert_attempts →
          workDirOf ctx (ctx.ids i) ∉ st.dirs ∧ ctx.ids i ∈ st.db_run_ids) →
        create_run_environment ctx st = (.idsUnavailable, st))
    ∧ (st.parent_exists = true → 1 ≤ ctx.db_insert_attempts →
        (∀ i, i < ctx.db_insert_attempts - 1 →
          workDirOf ctx (ctx.ids i) ∉ st.dirs ∧ ctx.ids i ∈ st.db_run_ids) →
        workDirOf ctx (ctx.ids (ctx.db_insert_attempts - 1)) ∉ st.dirs →
        ctx.ids (ctx.db_insert_attempts - 1) ∉ st.db_run_ids →
        (create_run_environment ctx st).1
          = .ok (ctx.ids (ctx.db_insert_attempts - 1))
              (ctx.task_ids (ctx.db_insert_attempts - 1))
              (workDirOf ctx (ctx.ids (ctx.db_insert_attempts - 1)))) := by
  refine ⟨?_, ?_, ?_, ?_, ?_⟩
  · intro hp hn
    rw [create_run_environment]
    have he : ctx.db_insert_attempts = (ctx.db_insert_attempts - 1) + 1 := by
      omega
    rw [he, createEnvGo_parent_missing ctx 0 _ st hp]
  · intro call rem hp hdir
    exact createEnvGo_exists_dir ctx call rem st hp hdir
  · intro call rem hp hdir hdb
    exact createEnvGo_dup_key ctx call rem st hp hdir hdb
  · intro hp h
    rw [create_run_environment]
    apply createEnvGo_all_collide ctx ctx.db_insert_attempts 0 st hp
    intro i hi
    rw [Nat.zero_add]
    exact h i hi
  · intro hp hn h hdir hdb
    rw [create_run_environment]
    have he : ctx.db_insert_attempts = (ctx.db_insert_attempts - 1) + 1 := by
      omega
    rw [he, createEnvGo_collide_prefix ctx (ctx.db_insert_attempts - 1) 0 1 st
      hp (by intro i hi; rw [Nat.zero_add]; exact h i hi), Nat.zero_add,
      createEnvGo_success ctx (ctx.db_insert_attempts - 1) 0 st hp hdir hdb]
    simp

/-- Concrete context for the C4 witness: two insert attempts, the first
mint colliding with an existing run id, the second fresh. -/
def c4ctx : CreateEnvCtx :=
  ⟨"/data", 2, fun i => if i = 0 then "AAA" else "BBB",
   fun i => if i = 0 then "task0" else "task1"⟩

/-- Initial environment for the C4 witness. -/
def c4st : EnvState := ⟨true, [], ["AAA"]⟩

/-- C4 witness: the duplicate-key storm with `db_insert_attempts = 2`
returns the second minted id with its task id and work directory; and
the parent-missing case at the same context. -/
theorem c4_create_run_environment_witness :
    (create_run_environment c4ctx c4st).1 = .ok "BBB" "task1" "/data/BBB"
    ∧ create_run_environment c4ctx ⟨false, [], []⟩
        = (.storageUnavailable, ⟨false, [], []⟩) := by
  constructor
  · have h := (c4_create_run_environment c4ctx c4st).2.2.2.2 rfl (by decide)
      (fun i hi => by
        have hi0 : i = 0 := by
          have : c4ctx.db_insert_attempts - 1 = 1 := by decide
          omega
        subst hi0
        exact ⟨by decide, by decide⟩)
      (by decide) (by decide)
    simpa using h
  · exact (c4_create_run_environment c4ctx ⟨false, [], []⟩).1 rfl (by decide)

/-! ## C6 — `RunRequest` form validation (`models.py:93-170`)

`json.loads` is modelled by a small recursive-descent JSON parser
(values: null, booleans, numbers — kept as lexemes, since only the
top-level shape matters to the validators — strings, arrays, objects),
driven by a fuel argument bounded by the input length. -/

/-- A JSON value as produced by `json.loads`. -/
inductive Json where
  | null
  | bool (b : Bool)
  | num (lexeme : String)
  | str (s : String)
  | arr (elems : List Json)
  | obj (fields : List (String × Json))
deriving Repr

/-- JSON whitespace. -/
def isWsChar (c : Char) : Bool :=
  c = Char.ofNat 32 ∨ c = Char.ofNat 9 ∨ c = Char.ofNat 10 ∨ c = Char.ofNat 13

/-- Drop leading whitespace. -/
def skipWs : List Char → List Char
  | [] => []
  | c :: cs => if isWsChar c then skipWs cs else c :: cs

/-- Scan a JSON string body up to the closing quote (escapes are kept
as the escaped character; the validators never look inside strings). -/
def scanString : List Char → Option (String × List Char)
  | [] => none
  | c :: cs =>
      if c = Char.ofNat 92 then
        match cs with
        | [] => none
        | e :: cs2 =>
            (scanString cs2).map (fun r => (String.mk (e :: r.1.data), r.2))
      else if c = Char.ofNat 34 then some ("", cs)
      else (scanString cs).map (fun r => (String.mk (c :: r.1.data), r.2))

/-- Characters a number lexeme may contain. -/
def isNumChar (c : Char) : Bool :=
  c.isDigit ∨ c = Char.ofNat 45 ∨ c = Char.ofNat 43 ∨ c = Char.ofNat 46
    ∨ c = 'e' ∨ c = 'E'

/-- Span a number lexeme. -/
def scanNum : List Char → (List Char × List Char)
  | [] => ([], [])
  | c :: cs =>
      if isNumChar c then
        let r := scanNum cs
        (c :: r.1, r.2)
      else ([], c :: cs)

mutual

/-- Parse one JSON value. -/
def parseVal : Nat → List Char → Option (Json × List Char)
  | 0, _ => none
  | fuel + 1, cs =>
      match skipWs cs with
      | [] => none
      | c :: rest =>
          if c = 'n' then
            match rest with
            | 'u' :: 'l' :: 'l' :: rest2 => some (.null, rest2)
            | _ => none
          else if c = 't' then
            match rest with
            | 'r' :: 'u' :: 'e' :: rest2 => some (.bool true, rest2)
            | _ => none
          else if c = 'f' then
            match rest with
            | 'a' :: 'l' :: 's' :: 'e' :: rest2 => some (.bool false, rest2)
            | _ => none
          else if c = Char.ofNat 34 then
            (scanString rest).map (fun r => (.str r.1, r.2))
          else if c = Char.ofNat 91 then
            match skipWs rest with
            | c2 :: rest2 =>
                if c2 = Char.ofNat 93 then some (.arr [], rest2)
                else parseArrItems fuel (skipWs rest) []
            | [] => none
          else if c = Char.ofNat 123 then
            match skipWs rest with
            | c2 :: rest2 =>
                if c2 = Char.ofNat 125 then some (.obj [], rest2)
                else parseObjItems fuel (skipWs rest) []
            | [] => none
          else if isNumChar c then
            let r := scanNum (c :: rest)
            some (.num (String.mk r.1), r.2)
          else none

/-- Parse the comma-separated items of a non-empty array. -/
def parseArrItems : Nat → List Char → List Json →
    Option (Json × List Char)
  | 0, _, _ => none
  | fuel + 1, cs, acc =>
      match parseVal fuel cs with
      | none => none
      | some (v, rest) =>
          match skipWs rest with
          | c :: rest2 =>
              if c = Char.ofNat 44 then parseArrItems fuel rest2 (acc ++ [v])
              else if c = Char.ofNat 93 then some (.arr (acc ++ [v]), rest2)
              else none
          | [] => none

/-- Parse the comma-separated members of a non-empty object. -/
def parseObjItems : Nat → List Char → List (String × Json) →
    Option (Json × List Char)
  | 0, _, _ => none
  | fuel + 1, cs, acc =>
      match skipWs cs with
      | c :: rest =>
          if c = Char.ofNat 34 then
            match scanString rest with
            | none => none
            | some (key, rest2) =>
                match skipWs rest2 with
                | c2 :: rest3 =>
                    if c2 = Char.ofNat 58 then
                      match parseVal fuel rest3 with
                      | none => none
                      | some (v, rest4) =>
                          match skipWs rest4 with
                          | c3 :: rest5 =>
                              if c3 = Char.ofNat 44 then
                                parseObjItems fuel rest5 (acc ++ [(key, v)])
                              else if c3 = Char.ofNat 125 then
                                some (.obj (acc ++ [(key, v)]), rest5)
                              else none
                          | [] => none
                    else none
                | [] => none
          else none
      | [] => none

end

/-- `json.loads`: parse one value and require only trailing whitespace. -/
def loads (s : String) : Option Json :=
  match parseVal (2 * s.length + 2) s.data with
  | none => none
  | some (v, rest) => if skipWs rest = [] then some v else none

/-- The string a brace pair forms: the `"{}"` normalisation target. -/
def emptyObjectString : String := String.mk [Char.ofNat 123, Char.ofNat 125]

/-- Does the string JSON-deserialize to an object? -/
def isObjectString (s : String) : Bool :=
  match loads s with
  | some (Json.obj _) => true
  | _ => false

/-- The `POST /runs` form fields as they reach `RunRequest(**dict)`
(`workflow_attachment` already dropped); `none` is a missing field. -/
structure RunRequestForm where
  workflow_params : Option String
  workflow_type : Option String
  workflow_type_version : Option String
  tags : Option String
  workflow_engine_parameters : Option String
  workflow_url : Option String
deriving DecidableEq, Repr

/-- A validated `RunRequest` (`models.py:50-91`). -/
structure RunRequest where
  workflow_params : String
  workflow_type : String
  workflow_type_version : String
  tags : String
  workflow_engine_parameters : String
  workflow_url : String
deriving DecidableEq, Repr

/-- `RunRequest.required_str_field_not_empty` (`models.py:93-117`),
together with pydantic's required-field check: a missing or empty
string is a `ValueError`. -/
def required_str_field_not_empty (value : Option String) :
    Except Unit String :=
  match value with
  | none => .error ()
  | some s => if s = "" then .error () else .ok s

/-- `RunRequest.json_serialized_object_field_valid` (`models.py:119-170`)
on a present value: empty, `"null"` (or missing) values raise for the
required `workflow_params` field and normalise to `"{}"` for optional
fields; anything else must JSON-decode to an object. -/
def json_object_validator (is_required : Bool) (s : String) :
    Except Unit String :=
  if s = "" ∨ s = "null" then
    if is_required then .error () else .ok emptyObjectString
  else
    match loads s with
    | none => .error ()
    | some (Json.obj _) => .ok s
    | some _ => .error ()

/-- `workflow_params` validation: the field is required (a missing
value is pydantic's own `field required` error), then the
JSON-object validator applies with no normalisation. -/
def workflow_params_validator (value : Option String) :
    Except Unit String :=
  match value with
  | none => .error ()
  | some s => json_object_validator true s

/-- Full field validation of `RunRequest(**dict_atomic)`: the form is
accepted exactly when every field validator passes (pydantic collects
the errors; acceptance only needs all of them to pass). Optional JSON
fields get the declared default `"{}"` when missing. -/
def validateRunRequestFields (f : RunRequestForm) :
    Except Unit RunRequest := do
  let wp ← workflow_params_validator f.workflow_params
  let wt ← required_str_field_not_empty f.workflow_type
  let wtv ← required_str_field_not_empty f.workflow_type_version
  let tg ← json_object_validator false (f.tags.getD emptyObjectString)
  let wep ← json_object_validator false
    (f.workflow_engine_parameters.getD emptyObjectString)
  let wu ← required_str_field_not_empty f.workflow_url
  return ⟨wp, wt, wtv, tg, wep, wu⟩

/-- Did validation succeed? -/
def isOkE {α : Type} : Except Unit α → Bool
  | .ok _ => true
  | .error _ => false

/-- Claim-side reading: a required string field is a non-empty string. -/
def requiredStrOk (v : Option String) : Bool :=
  match v with
  | none => false
  | some s => decide (s ≠ "")

/-- Claim-side reading: `workflow_params` is present, not empty or
`"null"`, and deserializes to an object. -/
def requiredObjOk (v : Option String) : Bool :=
  match v with
  | none => false
  | some s => !(decide (s = "" ∨ s = "null")) && isObjectString s

/-- Claim-side reading: an optional JSON field is empty/`"null"`/missing
(normalised to `"{}"`) or deserializes to an object. -/
def optionalObjOk (v : Option String) : Bool :=
  decide ((v.getD emptyObjectString) = "" ∨ (v.getD emptyObjectString) = "null")
    || isObjectString (v.getD emptyObjectString)

theorem isOkE_required_str (v : Option String) :
    isOkE (required_str_field_not_empty v) = requiredStrOk v := by
  cases v with
  | none => rfl
  | some s =>
      by_cases h : s = "" <;>
        simp [required_str_field_not_empty, requiredStrOk, isOkE, h]

theorem isOkE_json_opt (s : String) :
    isOkE (json_object_validator false s)
      = (decide (s = "" ∨ s = "null") || isObjectString s) := by
  by_cases h : s = "" ∨ s = "null"
  · simp [json_object_validator, isOkE, h]
  · simp only [json_object_validator, if_neg h]
    cases hl : loads s with
    | none => simp [isOkE, isObjectString, hl, h]
    | some j => cases j <;> simp [isOkE, isObjectString, hl, h]

theorem isOkE_wp (v : Option String) :
    isOkE (workflow_params_validator v) = requiredObjOk v := by
  cases v with
  | none => rfl
  | some s =>
      by_cases h : s = "" ∨ s = "null"
      · simp [workflow_params_validator, json_object_validator, requiredObjOk,
          isOkE, h]
      · simp only [workflow_params_validator, json_object_validator, if_neg h,
          requiredObjOk]
        cases hl : loads s with
        | none => simp [isOkE, isObjectString, hl, h]
        | some j => cases j <;> simp [isOkE, isObjectString, hl, h]

theorem isOkE_opt (v : Option String) :
    isOkE (json_object_validator false (v.getD emptyObjectString))
      = optionalObjOk v :=
  isOkE_json_opt (v.getD emptyObjectString)

/-- A valid form: `workflow_params = "{}"`, required strings non-empty,
optional JSON fields missing. -/
def c6form_ok : RunRequestForm :=
  ⟨some emptyObjectString, some "CWL", some "v1.0", none, none,
   some "file:///x.cwl"⟩

/-- C6: form validation accepts exactly when the three required string
fields are present and non-empty and every JSON-object-typed field
deserializes to an object (with empty/`"null"`/missing optional fields
normalised to `"{}"`); concretely, `workflow_params` empty, `"null"`,
missing, or `"[]"` (an array, not an object) is rejected, while an
empty optional `tags` is normalised to `"{}"` and accepted. -/
theorem c6_run_request_validation :
    (∀ f : RunRequestForm,
      isOkE (validateRunRequestFields f)
        = (requiredObjOk f.workflow_params
           && requiredStrOk f.workflow_type
           && requiredStrOk f.workflow_type_version
           && optionalObjOk f.tags
           && optionalObjOk f.workflow_engine_parameters
           && requiredStrOk f.workflow_url))
    ∧ validateRunRequestFields
        { c6form_ok with workflow_params := some "" } = .error ()
    ∧ validateRunRequestFields
        { c6form_ok with workflow_params := some "null" } = .error ()
    ∧ validateRunRequestFields
        { c6form_ok with workflow_params := none } = .error ()
    ∧ validateRunRequestFields
        { c6form_ok with workflow_params := some "[]" } = .error ()
    ∧ validateRunRequestFields { c6form_ok with tags := some "" }
        = .ok ⟨emptyObjectString, "CWL", "v1.0", emptyObjectString,
               emptyObjectString, "file:///x.cwl"⟩
    ∧ validateRunRequestFields c6form_ok
        = .ok ⟨emptyObjectString, "CWL", "v1.0", emptyObjectString,
               emptyObjectString, "file:///x.cwl"⟩ := by
  refine ⟨?_, rfl, rfl, rfl, rfl, rfl, rfl⟩
  intro f
  rw [← isOkE_wp f.workflow_params, ← isOkE_required_str f.workflow_type,
    ← isOkE_required_str f.workflow_type_version, ← isOkE_opt f.tags,
    ← isOkE_opt f.workflow_engine_parameters,
    ← isOkE_required_str f.workflow_url]
  simp only [validateRunRequestFields, Bind.bind, Except.bind]
  cases workflow_params_validator f.workflow_params <;>
    cases required_str_field_not_empty f.workflow_type <;>
    cases required_str_field_not_empty f.workflow_type_version <;>
    cases json_object_validator false (f.tags.getD emptyObjectString) <;>
    cases json_object_validator false
      (f.workflow_engine_parameters.getD emptyObjectString) <;>
    cases required_str_field_not_empty f.workflow_url <;>
    rfl

/-! ## C7 — `WorkflowRuns.list_runs` pagination
(`workflow_runs.py:168-241`)

A stored run is modelled by its MongoDB ObjectId (a `Nat`, strictly
increasing with insertion), its owner, and the projected
`run_log.run_id` / `run_log.state`. -/

/-- A stored run, as `list_runs` sees it. -/
structure RunEntry where
  oid : Nat
  user_id : Option String
  run_id : String
  state : State
deriving DecidableEq, Repr

/-- The owner filter: `filter_dict[user_id] = kwargs[user_id]` when a
`user_id` is present. -/
def userMatch (user : Option String) (e : RunEntry) : Bool :=
  match user with
  | none => true
  | some u => decide (e.user_id = some u)

/-- The pagination filter: `_id < ObjectId(page_token)` when a
non-empty token is given. -/
def tokMatch (tok : Option Nat) (e : RunEntry) : Bool :=
  match tok with
  | none => true
  | some t => decide (e.oid < t)

/-- Descending-ObjectId order (non-strict), the `sort(_id, -1)` key. -/
def oidGE (a b : RunEntry) : Prop := b.oid ≤ a.oid

/-- Strict descending-ObjectId order. -/
def oidGT (a b : RunEntry) : Prop := b.oid < a.oid

instance : DecidableRel oidGE := fun a b => Nat.decLe b.oid a.oid

instance : IsTotal RunEntry oidGE := ⟨fun a b => Nat.le_total b.oid a.oid⟩

instance : IsTrans RunEntry oidGE := ⟨fun _ _ _ h1 h2 => le_trans h2 h1⟩

instance : IsAntisymm RunEntry oidGT :=
  ⟨fun _ _ h1 h2 => absurd (Nat.lt_trans h1 h2) (Nat.lt_irrefl _)⟩

/-- `cursor.sort(_id, -1)`. -/
def sortDescOid (l : List RunEntry) : List RunEntry :=
  List.insertionSort oidGE l

/-- The `{run_id, state}` reshaping of each returned run. -/
def projRun (e : RunEntry) : String × State := (e.run_id, e.state)

/-- `WorkflowRuns.list_runs`: filter by owner and token, sort by
descending ObjectId, limit to `page_size`; `next_page_token` is the
ObjectId of the last run of the page when the page is non-empty and
the empty token (`none`) otherwise; entries are projected to
`{run_id, state}`. -/
def list_runs (coll : List RunEntry) (page_size : Nat)
    (page_token : Option Nat) (user : Option String) :
    Option Nat × List (String × State) :=
  let page := (sortDescOid (coll.filter
    (fun e => userMatch user e && tokMatch page_token e))).take page_size
  match page.getLast? with
  | none => (none, [])
  | some last => (some last.oid, page.map projRun)

/-- Call `list_runs` and feed the returned token back until it is the
empty token, concatenating the pages. -/
def collectRuns (coll : List RunEntry) (ps : Nat) (user : Option String) :
    Nat → Option Nat → List (String × State)
  | 0, _ => []
  | fuel + 1, tok =>
      let r := list_runs coll ps tok user
      match r.1 with
      | none => r.2
      | some t => r.2 ++ collectRuns coll ps user fuel (some t)

theorem sorted_nodup_strict (l : List RunEntry)
    (hs : List.Sorted oidGE l) (hnd : (l.map RunEntry.oid).Nodup) :
    List.Pairwise oidGT l := by
  have h2 : List.Pairwise (fun a b : RunEntry => a.oid ≠ b.oid) l :=
    List.pairwise_map.mp hnd
  exact (hs.and h2).imp (fun h => lt_of_le_of_ne h.1 h.2.symm)

theorem sortDescOid_strict (l : List RunEntry)
    (hnd : (l.map RunEntry.oid).Nodup) :
    List.Pairwise oidGT (sortDescOid l) := by
  apply sorted_nodup_strict _ (List.sorted_insertionSort oidGE l)
  have hperm : List.Perm ((sortDescOid l).map RunEntry.oid)
      (l.map RunEntry.oid) :=
    (List.perm_insertionSort oidGE l).map RunEntry.oid
  exact hperm.nodup_iff.mpr hnd

theorem filter_sortDescOid (l : List RunEntry) (p : RunEntry → Bool)
    (hnd : (l.map RunEntry.oid).Nodup) :
    (sortDescOid l).filter p = sortDescOid (l.filter p) := by
  have hperm : List.Perm ((sortDescOid l).filter p)
      (sortDescOid (l.filter p)) :=
    ((List.perm_insertionSort oidGE l).filter p).trans
      (List.perm_insertionSort oidGE (l.filter p)).symm
  have hnd2 : ((l.filter p).map RunEntry.oid).Nodup :=
    hnd.sublist ((l.filter_sublist).map RunEntry.oid)
  exact @List.eq_of_perm_of_sorted RunEntry oidGT _ _ _ hperm
    (List.Pairwise.filter p (sortDescOid_strict l hnd))
    (sortDescOid_strict (l.filter p) hnd2)

theorem strictDesc_getLast_min (xs : List RunEntry) (la : RunEntry)
    (h : List.Pairwise oidGT xs) (hl : xs.getLast? = some la) :
    ∀ x ∈ xs, la.oid ≤ x.oid := by
  induction xs with
  | nil => cases hl
  | cons a tl ih =>
      cases tl with
      | nil =>
          have hl2 : a = la := by simpa using hl
          subst hl2
          intro x hx
          rcases List.mem_singleton.mp hx with rfl
          exact le_refl _
      | cons b tl2 =>
          rw [List.getLast?_cons_cons] at hl
          have htl := ih (List.Pairwise.sublist (List.sublist_cons_self a _) h) hl
          intro x hx
          rcases List.mem_cons.mp hx with rfl | hx2
          · have hla_mem : la ∈ b :: tl2 := List.mem_of_getLast?_eq_some hl
            have := (List.pairwise_cons.mp h).1 la hla_mem
            exact le_of_lt this
          · exact htl x hx2

theorem strictDesc_filter_lt_drop (rem : List RunEntry) (ps : Nat)
    (h : List.Pairwise oidGT rem) (la : RunEntry)
    (hla : (rem.take ps).getLast? = some la) :
    rem.filter (fun e => decide (e.oid < la.oid)) = rem.drop ps := by
  have hsplit := List.take_append_drop ps rem
  have hpw : List.Pairwise oidGT (rem.take ps ++ rem.drop ps) := by
    rw [hsplit]; exact h
  have hcross := (List.pairwise_append.mp hpw).2.2
  have hla_mem : la ∈ rem.take ps := List.mem_of_getLast?_eq_some hla
  have htake : List.Pairwise oidGT (rem.take ps) :=
    List.Pairwise.sublist (List.take_sublist ps rem) h
  have hmin := strictDesc_getLast_min (rem.take ps) la htake hla
  conv_lhs => rw [← hsplit]
  rw [List.filter_append]
  have h1 : (rem.take ps).filter (fun e => decide (e.oid < la.oid)) = [] := by
    apply List.filter_eq_nil_iff.mpr
    intro x hx
    have := hmin x hx
    simp only [decide_eq_true_eq]
    omega
  have h2 : (rem.drop ps).filter (fun e => decide (e.oid < la.oid))
      = rem.drop ps := by
    apply List.filter_eq_self.mpr
    intro x hx
    have := hcross la hla_mem x hx
    simp only [decide_eq_true_eq]
    exact this
  rw [h1, h2, List.nil_append]

theorem query_sorted_eq (coll : List RunEntry) (user : Option String)
    (tok : Option Nat) (hnd : (coll.map RunEntry.oid).Nodup) :
    sortDescOid (coll.filter (fun e => userMatch user e && tokMatch tok e))
      = (sortDescOid (coll.filter (fun e => userMatch user e))).filter
          (tokMatch tok) := by
  have hnd2 : ((coll.filter (fun e => userMatch user e)).map RunEntry.oid).Nodup :=
    hnd.sublist ((List.filter_sublist _).map RunEntry.oid)
  rw [filter_sortDescOid _ _ hnd2, List.filter_filter]
  congr 1
  apply List.filter_congr
  intro x _
  exact Bool.and_comm _ _

theorem tokMatch_of_lt (tok : Option Nat) (la e : RunEntry)
    (hla : tokMatch tok la = true) (hlt : e.oid < la.oid) :
    tokMatch tok e = true := by
  cases tok with
  | none => rfl
  | some t =>
      simp only [tokMatch, decide_eq_true_eq] at hla ⊢
      omega

theorem collectRuns_spec (coll : List RunEntry) (ps : Nat)
    (user : Option String) (hnd : (coll.map RunEntry.oid).Nodup)
    (hps : 1 ≤ ps) :
    ∀ (fuel : Nat) (tok : Option Nat),
      (((sortDescOid (coll.filter (fun e => userMatch user e))).filter
        (tokMatch tok)).length < fuel) →
      collectRuns coll ps user fuel tok
        = ((sortDescOid (coll.filter (fun e => userMatch user e))).filter
            (tokMatch tok)).map projRun := by
  intro fuel
  induction fuel with
  | zero => intro tok h; omega
  | succ f ih =>
      intro tok hlen
      set L := sortDescOid (coll.filter (fun e => userMatch user e)) with hL
      set rem := L.filter (tokMatch tok) with hrem
      have hpage : (sortDescOid (coll.filter
          (fun e => userMatch user e && tokMatch tok e))).take ps
          = rem.take ps := by
        rw [query_sorted_eq coll user tok hnd]
      have hstrictL : List.Pairwise oidGT L := by
        rw [hL]
        exact sortDescOid_strict _
          (hnd.sublist ((List.filter_sublist _).map RunEntry.oid))
      have hstrict : List.Pairwise oidGT rem := List.Pairwise.filter _ hstrictL
      rw [collectRuns]
      simp only [list_runs, hpage]
      cases hre : rem.take ps with
      | nil =>
          have hrem_nil : rem = [] := by
            cases hrem2 : rem with
            | nil => rfl
            | cons a rest =>
                rw [hrem2] at hre
                cases ps with
                | zero => omega
                | succ n => simp [List.take_cons] at hre
          simp [hrem_nil]
      | cons a pg =>
          have hne : rem.take ps ≠ [] := by rw [hre]; exact List.cons_ne_nil a pg
          obtain ⟨la, hla⟩ : ∃ la, (rem.take ps).getLast? = some la := by
            cases hgl : (rem.take ps).getLast? with
            | none => exact absurd (List.getLast?_eq_none_iff.mp hgl) hne
            | some x => exact ⟨x, rfl⟩
          rw [hre] at hla
          simp only [hla]
          have hla2 : (rem.take ps).getLast? = some la := by rw [hre]; exact hla
          have hla_mem_take : la ∈ rem.take ps := List.mem_of_getLast?_eq_some hla2
          have hla_mem : la ∈ rem := List.mem_of_mem_take hla_mem_take
          have hla_tok : tokMatch tok la = true := by
            have := List.of_mem_filter (p := tokMatch tok) (by
              rw [hrem] at hla_mem; exact hla_mem)
            exact this
          have hnext : L.filter (tokMatch (some la.oid)) = rem.drop ps := by
            have hstep1 : L.filter (tokMatch (some la.oid))
                = rem.filter (fun e => decide (e.oid < la.oid)) := by
              rw [hrem, List.filter_filter]
              apply List.filter_congr
              intro x _
              show tokMatch (some la.oid) x
                = (decide (x.oid < la.oid) && tokMatch tok x)
              by_cases hlt : x.oid < la.oid
              · have ht := tokMatch_of_lt tok la x hla_tok hlt
                rw [ht]
                simp [tokMatch, hlt]
              · simp [tokMatch, hlt]
            rw [hstep1]
            exact strictDesc_filter_lt_drop rem ps hstrict la hla2
          have hrec := ih (some la.oid) (by
            rw [hnext]
            have h1 : rem ≠ [] := by
              intro hc
              rw [hc] at hre
              simp at hre
            have h2 : rem.length ≤ f := by omega
            have h3 : 1 ≤ rem.length := List.length_pos.mpr h1
            have := List.length_drop ps rem
            omega)
          rw [hrec, hnext]
          rw [← List.map_append, ← hre, List.take_append_drop]

/-- C7 counterexample: with one stored run and `page_size = 2` the
returned page holds one entry — it did not fill to `page_size` — yet
`next_page_token` is not the empty token, contradicting the claim that
the token is empty exactly when the page did not fill or was empty. -/
theorem c7_token_on_unfilled_page :
    (list_runs [⟨1, none, "r1", State.RUNNING⟩] 2 none none).1 = some 1
    ∧ ((list_runs [⟨1, none, "r1", State.RUNNING⟩] 2 none none).2).length = 1
    ∧ (1 : Nat) < 2 := by
  refine ⟨rfl, rfl, by decide⟩

/-- C7 (amended): for every stored set of runs with distinct ObjectIds
and every `page_size ≥ 1`, feeding `next_page_token` back until it is
the empty token yields every matching run (respecting the owner filter)
exactly once, in descending insertion order, each entry projected to
`(run_id, state)`; and on each call `next_page_token` is the empty
token exactly when the returned page is *empty* (a final page that
under-fills still carries a token, so one extra call returning an empty
page ends the iteration). -/
theorem c7_list_runs_pagination (coll : List RunEntry) (ps : Nat)
    (user : Option String) (hnd : (coll.map RunEntry.oid).Nodup)
    (hps : 1 ≤ ps) :
    collectRuns coll ps user (coll.length + 1) none
      = (sortDescOid (coll.filter (fun e => userMatch user e))).map projRun
    ∧ List.Perm (sortDescOid (coll.filter (fun e => userMatch user e)))
        (coll.filter (fun e => userMatch user e))
    ∧ List.Pairwise oidGT
        (sortDescOid (coll.filter (fun e => userMatch user e)))
    ∧ ∀ tok, ((list_runs coll ps tok user).1 = none
        ↔ (list_runs coll ps tok user).2 = []) := by
  refine ⟨?_, List.perm_insertionSort oidGE _, ?_, ?_⟩
  · have h := collectRuns_spec coll ps user hnd hps (coll.length + 1) none
    have hlen : ((sortDescOid (coll.filter (fun e => userMatch user e))).filter
        (tokMatch none)).length < coll.length + 1 := by
      have h1 : ((sortDescOid (coll.filter (fun e => userMatch user e))).filter
          (tokMatch none)).length
          ≤ (sortDescOid (coll.filter (fun e => userMatch user e))).length :=
        List.length_filter_le _ _
      have h2 : (sortDescOid (coll.filter (fun e => userMatch user e))).length
          = (coll.filter (fun e => userMatch user e)).length :=
        (List.perm_insertionSort oidGE _).length_eq
      have h3 : (coll.filter (fun e => userMatch user e)).length ≤ coll.length :=
        List.length_filter_le _ _
      omega
    rw [h hlen]
    congr 1
    apply List.filter_eq_self.mpr
    intro x _
    rfl
  · exact sortDescOid_strict _
      (hnd.sublist ((List.filter_sublist _).map RunEntry.oid))
  · intro tok
    simp only [list_runs]
    cases hgl : ((sortDescOid (coll.filter
        (fun e => userMatch user e && tokMatch tok e))).take ps).getLast? with
    | none => simp
    | some la =>
        simp only
        constructor
        · intro hc
          cases hc
        · intro hc
          have hnil := List.map_eq_nil_iff.mp hc
          rw [hnil] at hgl
          cases hgl

/-- C7 amended-claim witness: the full iteration over three concrete
runs (two owned by `alice`, one by `bob`) with `page_size = 1` and the
owner filter `alice`: both matching runs appear exactly once, newest
first, and the token-iff at a concrete call. -/
theorem c7_list_runs_pagination_witness :
    collectRuns
      [⟨3, some "alice", "r3", State.COMPLETE⟩,
       ⟨2, some "bob", "r2", State.RUNNING⟩,
       ⟨1, some "alice", "r1", State.RUNNING⟩] 1 (some "alice") 4 none
      = [("r3", State.COMPLETE), ("r1", State.RUNNING)]
    ∧ ((list_runs
        [⟨3, some "alice", "r3", State.COMPLETE⟩,
         ⟨2, some "bob", "r2", State.RUNNING⟩,
         ⟨1, some "alice", "r1", State.RUNNING⟩] 1 none (some "alice")).1 = none
      ↔ (list_runs
        [⟨3, some "alice", "r3", State.COMPLETE⟩,
         ⟨2, some "bob", "r2", State.RUNNING⟩,
         ⟨1, some "alice", "r1", State.RUNNING⟩] 1 none (some "alice")).2 = []) := by
  constructor
  · have h := (c7_list_runs_pagination
      [⟨3, some "alice", "r3", State.COMPLETE⟩,
       ⟨2, some "bob", "r2", State.RUNNING⟩,
       ⟨1, some "alice", "r1", State.RUNNING⟩] 1 (some "alice")
      (by decide) (by decide)).1
    exact h.trans rfl
  · exact (c7_list_runs_pagination
      [⟨3, some "alice", "r3", State.COMPLETE⟩,
       ⟨2, some "bob", "r2", State.RUNNING⟩,
       ⟨1, some "alice", "r1", State.RUNNING⟩] 1 (some "alice")
      (by decide) (by decide)).2.2.2 none

end ProWes
